import Mathlib

/-!
# Project Store Service — shallow embedding

A shallow embedding of `src/backend/server.js`: a minimal CRUD service over a
single collection of "project" records persisted as one JSON document.

Modelling conventions:
* A JSON value is `JVal` (strings and integer numbers suffice for the record
  fields the claims mention).
* A record ("project") is an association list `Obj := List (String × JVal)`.
  JavaScript object-literal / spread semantics make the *last* binding of a key
  win, so field access `oget` is last-wins.  The handlers build merged records
  exactly as the spread expressions in the source do (`{id: uuidv4(),
  ...req.body, createdAt, updatedAt}` becomes list concatenation in the same
  order).
* The persisted document is `St := Option (Option (List Obj))`: `none` — the
  file does not exist; `some none` — the file exists but cannot be parsed;
  `some (some l)` — it parses to the collection `l`.
* Effects of the environment are explicit parameters: each `uuidv4()` call is a
  `String` argument, each `new Date().toISOString()` inside one handler is the
  request instant `now : String`, and the success of `fs.writeFileSync` is a
  `Bool` argument (`true` — the write succeeds, `false` — it throws).
-/

inductive JVal where
  | str (s : String)
  | num (n : Int)
  deriving DecidableEq, Repr

/-- A JavaScript object: an association list of fields (last binding wins). -/
abbrev Obj := List (String × JVal)

/-- Property access `o.k` with JavaScript semantics: the last binding of the
key wins (later spread entries overwrite earlier ones). -/
def oget (o : Obj) (k : String) : Option JVal :=
  match o with
  | [] => none
  | kv :: rest => (oget rest k).orElse (fun _ => if kv.1 = k then some kv.2 else none)

/-- The persisted document: missing / unparseable / parsed collection. -/
abbrev St := Option (Option (List Obj))

/-- `readProjects` (server.js:26-36): return the parsed collection; a missing
file or a caught read/parse error yields the empty collection. -/
def readProjects (st : St) : List Obj :=
  match st with
  | none => []
  | some none => []
  | some (some l) => l

/-- `writeProjects` (server.js:38-46): overwrite the persisted document with
the serialized collection, reporting success as a boolean.  `ok` is whether
`fs.writeFileSync` succeeds; on failure the document is left as it was and
`false` is returned. -/
def writeProjects (ok : Bool) (projects : List Obj) (st : St) : Bool × St :=
  if ok then (true, some (some projects)) else (false, st)

/-- The JavaScript test `p.id === req.params.id` (the route parameter is
always a string). -/
def idMatches (pid : String) (p : Obj) : Bool :=
  oget p "id" == some (JVal.str pid)

/-- `Array.prototype.findIndex`: index of the first element satisfying the
predicate. -/
def findIndex (pred : Obj → Bool) : List Obj → Option Nat
  | [] => none
  | p :: ps => if pred p then some 0 else (findIndex pred ps).map (· + 1)

/-- Body of an HTTP response. -/
inductive RespBody where
  | record (o : Obj)
  | records (l : List Obj)
  | errorMsg (s : String)
  | message (s : String)
  deriving DecidableEq, Repr

/-- An HTTP response: status code and JSON body. -/
structure Response where
  status : Nat
  body : RespBody
  deriving DecidableEq, Repr

/-- The object built by the create handler (server.js:121-126):
`{ id: uuidv4(), ...req.body, createdAt: now, updatedAt: now }`. -/
def createRecord (freshId now : String) (body : Obj) : Obj :=
  (("id", JVal.str freshId) :: body)
    ++ [("createdAt", JVal.str now), ("updatedAt", JVal.str now)]

/-- The object built by the update handler (server.js:150-154):
`{ ...projects[projectIndex], ...req.body, updatedAt: now }`. -/
def mergedRecord (old : Obj) (body : Obj) (now : String) : Obj :=
  old ++ body ++ [("updatedAt", JVal.str now)]

/-- `GET /api/projects` (server.js:92-99). -/
def getProjects (st : St) : Response × St :=
  let projects := readProjects st
  (⟨200, .records projects⟩, st)

/-- `GET /api/projects/:id` (server.js:102-115). -/
def getProjectById (pid : String) (st : St) : Response × St :=
  let projects := readProjects st
  match projects.find? (idMatches pid) with
  | none => (⟨404, .errorMsg "Проект не найден"⟩, st)
  | some project => (⟨200, .record project⟩, st)

/-- `POST /api/projects` (server.js:118-138). -/
def createProject (freshId now : String) (body : Obj) (writeOk : Bool)
    (st : St) : Response × St :=
  let projects := readProjects st
  let newProject := createRecord freshId now body
  let w := writeProjects writeOk (projects ++ [newProject]) st
  if w.1 then
    (⟨201, .record newProject⟩, w.2)
  else
    (⟨500, .errorMsg "Ошибка сохранения проекта"⟩, w.2)

/-- `PUT /api/projects/:id` (server.js:141-164). -/
def updateProject (pid now : String) (body : Obj) (writeOk : Bool)
    (st : St) : Response × St :=
  let projects := readProjects st
  match findIndex (idMatches pid) projects with
  | none => (⟨404, .errorMsg "Проект не найден"⟩, st)
  | some projectIndex =>
    let merged := mergedRecord (projects.getD projectIndex []) body now
    let w := writeProjects writeOk (projects.set projectIndex merged) st
    if w.1 then
      (⟨200, .record merged⟩, w.2)
    else
      (⟨500, .errorMsg "Ошибка обновления проекта"⟩, w.2)

/-- `DELETE /api/projects/:id` (server.js:167-184). -/
def deleteProject (pid : String) (writeOk : Bool) (st : St) : Response × St :=
  let projects := readProjects st
  let filteredProjects := projects.filter (fun p => !(idMatches pid p))
  if projects.length = filteredProjects.length then
    (⟨404, .errorMsg "Проект не найден"⟩, st)
  else
    let w := writeProjects writeOk filteredProjects st
    if w.1 then
      (⟨200, .message "Проект успешно удален"⟩, w.2)
    else
      (⟨500, .errorMsg "Ошибка удаления проекта"⟩, w.2)

/-- The three sample records of `initializeSampleData` (server.js:52-83),
with the three `uuidv4()` results and the request instant as parameters. -/
def sampleProjects (id1 id2 id3 now : String) : List Obj :=
  [ [("id", JVal.str id1), ("name", JVal.str "Умная мобильность"),
     ("industry", JVal.str "Транспорт"),
     ("инвестиционнаяОценка", JVal.num 68), ("транспортнаяОценка", JVal.num 8),
     ("status", JVal.str "Рекомендовано к полной оценке"),
     ("createdAt", JVal.str now), ("updatedAt", JVal.str now)],
    [("id", JVal.str id2), ("name", JVal.str "Билетная система с ИИ"),
     ("industry", JVal.str "Транспорт"),
     ("инвестиционнаяОценка", JVal.num 61), ("транспортнаяОценка", JVal.num 5),
     ("status", JVal.str "Только инвестиции"),
     ("createdAt", JVal.str now), ("updatedAt", JVal.str now)],
    [("id", JVal.str id3), ("name", JVal.str "Экологичная парковка"),
     ("industry", JVal.str "Транспорт"),
     ("инвестиционнаяОценка", JVal.num 52), ("транспортнаяОценка", JVal.num 7),
     ("status", JVal.str "Только пилот"),
     ("createdAt", JVal.str now), ("updatedAt", JVal.str now)] ]

/-- `initializeSampleData` (server.js:49-87): if the loaded collection is
empty, persist the three sample records once; otherwise do nothing. -/
def initializeSampleData (id1 id2 id3 now : String) (writeOk : Bool)
    (st : St) : St :=
  let projects := readProjects st
  if projects.length = 0 then
    (writeProjects writeOk (sampleProjects id1 id2 id3 now) st).2
  else
    st

/-! ## Traces of successful mutating requests

For the invariant claim about sequences of creates and deletes we run the
handlers above over a persisted document; each operation carries its own
environment (the `uuidv4()` result, the request instant, the body). -/

/-- One mutating request: a create (with its generated id, request instant and
body) or a delete (with its route parameter). -/
inductive Op where
  | create (freshId now : String) (body : Obj)
  | del (pid : String)
  deriving DecidableEq, Repr

/-- Run one request against a parsed persisted document whose content is `l`,
with the write succeeding; return the response and the collection afterwards. -/
def runOp (l : List Obj) (op : Op) : Response × List Obj :=
  match op with
  | .create freshId now body =>
    let r := createProject freshId now body true (some (some l))
    (r.1, readProjects r.2)
  | .del pid =>
    let r := deleteProject pid true (some (some l))
    (r.1, readProjects r.2)

/-- Run a sequence of requests, threading the persisted collection. -/
def runOps (l : List Obj) : List Op → List Obj
  | [] => l
  | op :: ops => runOps (runOp l op).2 ops

/-- Every request in the sequence succeeds (status 201 for creates, 200 for
deletes). -/
def allOk (l : List Obj) : List Op → Bool
  | [] => true
  | op :: ops =>
    ((runOp l op).1.status == 201 || (runOp l op).1.status == 200)
      && allOk (runOp l op).2 ops

/-- Number of create requests in a sequence. -/
def numCreates : List Op → Nat :=
  List.countP (fun op => match op with | .create .. => true | .del _ => false)

/-- Number of delete requests in a sequence. -/
def numDels : List Op → Nat :=
  List.countP (fun op => match op with | .create .. => false | .del _ => true)

/-- The records the create requests of a sequence build, in request order. -/
def createdRecs : List Op → List Obj
  | [] => []
  | .create f n b :: ops => createRecord f n b :: createdRecs ops
  | .del _ :: ops => createdRecs ops

/-- The generated ids of the create requests of a sequence, in request order. -/
def opFreshIds : List Op → List String
  | [] => []
  | .create f _ _ :: ops => f :: opFreshIds ops
  | .del _ :: ops => opFreshIds ops

/-- No create request in the sequence carries an `id` field in its body. -/
def bodiesNoId : List Op → Bool
  | [] => true
  | .create _ _ b :: ops => (oget b "id" == none) && bodiesNoId ops
  | .del _ :: ops => bodiesNoId ops

/-- The `id` fields of the records of a collection, in order. -/
def idsOf (l : List Obj) : List (Option JVal) :=
  l.map (fun p => oget p "id")

example :
    (createProject "u1" "t1" [("name", JVal.str "X")] true (some (some []))).1.status
      = 201 := by decide

example :
    oget (createRecord "u1" "t1" [("id", JVal.str "a")]) "id"
      = some (JVal.str "a") := by decide

example :
    (deleteProject "a" true
      (some (some [[("id", JVal.str "a")], [("id", JVal.str "a")]]))).1.status
      = 200 := by decide

/-! ## Field-lookup lemmas -/

theorem oget_append (a b : Obj) (k : String) :
    oget (a ++ b) k = (oget b k).orElse (fun _ => oget a k) := by
  induction a with
  | nil => cases h : oget b k <;> simp [oget, Option.orElse, h]
  | cons kv rest ih =>
    have hstep : oget ((kv :: rest) ++ b) k
        = (oget (rest ++ b) k).orElse (fun _ => if kv.1 = k then some kv.2 else none) := rfl
    rw [hstep, ih]
    cases h : oget b k <;> simp [oget, Option.orElse, h]

/-- The create handler's record carries the request instant as `createdAt`,
whatever the body contains. -/
theorem oget_createRecord_createdAt (fid now : String) (body : Obj) :
    oget (createRecord fid now body) "createdAt" = some (JVal.str now) := by
  simp [createRecord, oget_append, oget, Option.orElse]

/-- The create handler's record carries the request instant as `updatedAt`,
whatever the body contains. -/
theorem oget_createRecord_updatedAt (fid now : String) (body : Obj) :
    oget (createRecord fid now body) "updatedAt" = some (JVal.str now) := by
  simp [createRecord, oget_append, oget, Option.orElse]

/-- When the body has no `id` field, the created record's `id` is the
generated one. -/
theorem oget_createRecord_id (fid now : String) (body : Obj)
    (hbody : oget body "id" = none) :
    oget (createRecord fid now body) "id" = some (JVal.str fid) := by
  simp [createRecord, oget_append, oget, Option.orElse, hbody]

/-- On any other key the created record looks up the body. -/
theorem oget_createRecord_ne (fid now : String) (body : Obj) (k : String)
    (h1 : k ≠ "id") (h2 : k ≠ "createdAt") (h3 : k ≠ "updatedAt") :
    oget (createRecord fid now body) k = oget body k := by
  have h1' : ("id" : String) ≠ k := fun h => h1 h.symm
  have h2' : ("createdAt" : String) ≠ k := fun h => h2 h.symm
  have h3' : ("updatedAt" : String) ≠ k := fun h => h3 h.symm
  cases h : oget body k <;>
    simp [createRecord, oget_append, oget, Option.orElse, h, h1', h2', h3']

/-- The update handler's merged record carries the request instant as
`updatedAt`, whatever the body contains. -/
theorem oget_mergedRecord_updatedAt (old body : Obj) (now : String) :
    oget (mergedRecord old body now) "updatedAt" = some (JVal.str now) := by
  simp [mergedRecord, oget_append, oget, Option.orElse]

/-- On keys other than `updatedAt`, a field present in the body overwrites
the stored one in the merged record. -/
theorem oget_mergedRecord_of_body (old body : Obj) (now k : String) (v : JVal)
    (hk : k ≠ "updatedAt") (hbody : oget body k = some v) :
    oget (mergedRecord old body now) k = some v := by
  have hk' : ("updatedAt" : String) ≠ k := fun h => hk h.symm
  simp [mergedRecord, oget_append, oget, Option.orElse, hbody, hk']

/-- On keys other than `updatedAt` that the body does not mention, the merged
record keeps the stored field. -/
theorem oget_mergedRecord_of_not_body (old body : Obj) (now k : String)
    (hk : k ≠ "updatedAt") (hbody : oget body k = none) :
    oget (mergedRecord old body now) k = oget old k := by
  have hk' : ("updatedAt" : String) ≠ k := fun h => hk h.symm
  cases h : oget old k <;>
    simp [mergedRecord, oget_append, oget, Option.orElse, hbody, hk', h]

/-! ## Search and filter lemmas -/

theorem findIndex_eq_none_iff (pred : Obj → Bool) (l : List Obj) :
    findIndex pred l = none ↔ ∀ p ∈ l, pred p = false := by
  induction l with
  | nil => simp [findIndex]
  | cons p ps ih => by_cases h : pred p = true <;> simp [findIndex, h, ih]

theorem idMatches_oget (pid : String) (p : Obj) (h : idMatches pid p = true) :
    oget p "id" = some (JVal.str pid) := by
  simpa [idMatches] using h

/-- Filtering out the records matching an id removes exactly the matching one
when the match is unique. -/
theorem filter_not_idMatches_single (pid : String) (l1 l2 : List Obj) (p : Obj)
    (hp : idMatches pid p = true)
    (h1 : ∀ q ∈ l1, idMatches pid q = false)
    (h2 : ∀ q ∈ l2, idMatches pid q = false) :
    (l1 ++ p :: l2).filter (fun q => !(idMatches pid q)) = l1 ++ l2 := by
  rw [List.filter_append, List.filter_cons]
  have e1 : l1.filter (fun q => !(idMatches pid q)) = l1 :=
    List.filter_eq_self.mpr (fun q hq => by simp [h1 q hq])
  have e2 : l2.filter (fun q => !(idMatches pid q)) = l2 :=
    List.filter_eq_self.mpr (fun q hq => by simp [h2 q hq])
  simp [hp, e1, e2]

/-- On a collection with pairwise-distinct `id` fields, deleting by id either
removes nothing or removes exactly one record. -/
theorem filter_not_idMatches_of_nodup (pid : String) (l : List Obj)
    (hnd : (idsOf l).Nodup) :
    l.filter (fun q => !(idMatches pid q)) = l ∨
      (l.filter (fun q => !(idMatches pid q))).length + 1 = l.length := by
  induction l with
  | nil => left; rfl
  | cons p ps ih =>
    simp only [idsOf, List.map_cons, List.nodup_cons] at hnd
    have hni : oget p "id" ∉ ps.map (fun q => oget q "id") := hnd.1
    have hnd' : (idsOf ps).Nodup := hnd.2
    by_cases hm : idMatches pid p = true
    · right
      have hps : ∀ q ∈ ps, idMatches pid q = false := by
        intro q hq
        by_contra hq'
        have hq2 : idMatches pid q = true := by simpa using hq'
        refine hni ?_
        rw [idMatches_oget pid p hm, ← idMatches_oget pid q hq2]
        exact List.mem_map_of_mem _ hq
      have e : ps.filter (fun q => !(idMatches pid q)) = ps :=
        List.filter_eq_self.mpr (fun q hq => by simp [hps q hq])
      simp [List.filter_cons, hm, e]
    · have hstep : (p :: ps).filter (fun q => !(idMatches pid q))
          = p :: ps.filter (fun q => !(idMatches pid q)) := by
        simp [List.filter_cons, hm]
      rcases ih hnd' with he | he
      · left; rw [hstep, he]
      · right; rw [hstep]; simp only [List.length_cons]; omega

/-! ## Claim theorems -/

/-- C5: whenever the persisted document is missing or cannot be parsed,
`readProjects` returns the empty collection (the failure is swallowed, not
surfaced). -/
theorem readProjects_missing_or_corrupt (st : St)
    (h : st = none ∨ st = some none) : readProjects st = [] := by
  rcases h with h | h <;> simp [h, readProjects]

theorem readProjects_missing_or_corrupt_witness :
    ((none : St) = none ∨ (none : St) = some none) ∧ readProjects none = [] :=
  ⟨Or.inl rfl, readProjects_missing_or_corrupt none (Or.inl rfl)⟩

/-- C4: for an id matching no record of the loaded collection, get, update and
delete each answer 404 with an error message and leave the persisted document
untouched (no save is attempted), whatever the body and whether or not a write
would succeed. -/
theorem missing_id_returns_404 (st : St) (pid now : String) (body : Obj)
    (writeOk : Bool)
    (h : ∀ p ∈ readProjects st, idMatches pid p = false) :
    getProjectById pid st = (⟨404, .errorMsg "Проект не найден"⟩, st) ∧
    updateProject pid now body writeOk st
        = (⟨404, .errorMsg "Проект не найден"⟩, st) ∧
    deleteProject pid writeOk st = (⟨404, .errorMsg "Проект не найден"⟩, st) := by
  have hfind : (readProjects st).find? (idMatches pid) = none :=
    List.find?_eq_none.mpr (fun p hp => by simp [h p hp])
  have hidx : findIndex (idMatches pid) (readProjects st) = none :=
    (findIndex_eq_none_iff _ _).mpr h
  have hfilter : (readProjects st).filter (fun p => !(idMatches pid p))
      = readProjects st :=
    List.filter_eq_self.mpr (fun p hp => by simp [h p hp])
  exact ⟨by simp [getProjectById, hfind], by simp [updateProject, hidx],
    by simp [deleteProject, hfilter]⟩

theorem missing_id_returns_404_witness :
    getProjectById "a" (some (some [[("id", JVal.str "b")]]))
        = (⟨404, .errorMsg "Проект не найден"⟩, some (some [[("id", JVal.str "b")]])) ∧
    updateProject "a" "t" [] true (some (some [[("id", JVal.str "b")]]))
        = (⟨404, .errorMsg "Проект не найден"⟩, some (some [[("id", JVal.str "b")]])) ∧
    deleteProject "a" true (some (some [[("id", JVal.str "b")]]))
        = (⟨404, .errorMsg "Проект не найден"⟩, some (some [[("id", JVal.str "b")]])) :=
  missing_id_returns_404 (some (some [[("id", JVal.str "b")]])) "a" "t" [] true
    (by decide)

/-- C8: when the write of the persisted document fails, `writeProjects`
reports it only as the boolean `false`, and the create, update and delete
handlers each answer 500 with an error message instead of the success
response. -/
theorem write_failure_maps_to_500 (st : St) (fid now pid : String) (body : Obj)
    (l : List Obj) :
    writeProjects false l st = (false, st) ∧
    (createProject fid now body false st).1
        = ⟨500, .errorMsg "Ошибка сохранения проекта"⟩ ∧
    (∀ i, findIndex (idMatches pid) (readProjects st) = some i →
      (updateProject pid now body false st).1
          = ⟨500, .errorMsg "Ошибка обновления проекта"⟩) ∧
    ((∃ p ∈ readProjects st, idMatches pid p = true) →
      (deleteProject pid false st).1
          = ⟨500, .errorMsg "Ошибка удаления проекта"⟩) := by
  refine ⟨rfl, by simp [createProject, writeProjects], ?_, ?_⟩
  · intro i hi
    simp [updateProject, hi, writeProjects]
  · rintro ⟨p, hp, hm⟩
    obtain ⟨s, t, hst⟩ := List.append_of_mem hp
    have hle : ((s ++ p :: t).filter (fun q => !(idMatches pid q))).length
        ≤ s.length + t.length := by
      rw [List.filter_append, List.filter_cons]
      simp only [hm, Bool.not_true, if_neg (by simp : ¬(false = true)),
        List.length_append]
      exact Nat.add_le_add (List.length_filter_le _ _) (List.length_filter_le _ _)
    have hlen : ¬ ((readProjects st).length
        = ((readProjects st).filter (fun q => !(idMatches pid q))).length) := by
      rw [hst]
      simp only [List.length_append, List.length_cons]
      omega
    simp [deleteProject, hlen, writeProjects]

theorem write_failure_maps_to_500_witness :
    writeProjects false [] (some (some [[("id", JVal.str "a")]]))
        = (false, some (some [[("id", JVal.str "a")]])) ∧
    (createProject "u" "t" [] false (some (some [[("id", JVal.str "a")]]))).1
        = ⟨500, .errorMsg "Ошибка сохранения проекта"⟩ ∧
    (updateProject "a" "t" [] false (some (some [[("id", JVal.str "a")]]))).1
        = ⟨500, .errorMsg "Ошибка обновления проекта"⟩ ∧
    (deleteProject "a" false (some (some [[("id", JVal.str "a")]]))).1
        = ⟨500, .errorMsg "Ошибка удаления проекта"⟩ := by
  have h := write_failure_maps_to_500 (some (some [[("id", JVal.str "a")]]))
    "u" "t" "a" [] []
  exact ⟨h.1, h.2.1, h.2.2.1 0 (by decide), h.2.2.2 (by decide)⟩

/-- C1 counterexample: a create whose body carries an `id` field keeps the
body's `id` (the spread `{id: uuidv4(), ...req.body, ...}` lets the body
overwrite the generated id), so the created record's id can equal an id
already present in the pre-existing collection. -/
theorem createProject_body_id_cex :
    (createProject "u1" "t" [("id", JVal.str "a")] true
        (some (some [[("id", JVal.str "a")]]))).1
      = ⟨201, .record (createRecord "u1" "t" [("id", JVal.str "a")])⟩ ∧
    oget (createRecord "u1" "t" [("id", JVal.str "a")]) "id"
      = some (JVal.str "a") ∧
    (∃ p ∈ readProjects (some (some [[("id", JVal.str "a")]])),
      oget p "id" = some (JVal.str "a")) := by
  refine ⟨by decide, by decide, ?_⟩
  exact ⟨[("id", JVal.str "a")], by decide, by decide⟩

/-- C1 (amended): for a create whose body does not carry an `id` field, if the
generated UUID is non-empty and is not the `id` of any pre-existing record,
the created record (returned with 201 and appended to the collection) has that
non-empty fresh id, and its `createdAt` equals its `updatedAt`. -/
theorem createProject_fresh_id (st : St) (fid now : String) (body : Obj)
    (hbody : oget body "id" = none)
    (hfid : fid ≠ "")
    (hfresh : ∀ p ∈ readProjects st, oget p "id" ≠ some (JVal.str fid)) :
    (createProject fid now body true st).1
        = ⟨201, .record (createRecord fid now body)⟩ ∧
    readProjects (createProject fid now body true st).2
        = readProjects st ++ [createRecord fid now body] ∧
    oget (createRecord fid now body) "id" = some (JVal.str fid) ∧
    JVal.str fid ≠ JVal.str "" ∧
    (∀ p ∈ readProjects st,
      oget p "id" ≠ oget (createRecord fid now body) "id") ∧
    oget (createRecord fid now body) "createdAt"
        = oget (createRecord fid now body) "updatedAt" := by
  refine ⟨by simp [createProject, writeProjects],
    by simp [createProject, writeProjects, readProjects],
    oget_createRecord_id fid now body hbody, by simp [hfid], ?_, ?_⟩
  · intro p hp
    rw [oget_createRecord_id fid now body hbody]
    exact hfresh p hp
  · rw [oget_createRecord_createdAt, oget_createRecord_updatedAt]

theorem createProject_fresh_id_witness :
    (createProject "u1" "t" [("name", JVal.str "X")] true (some (some []))).1
        = ⟨201, .record (createRecord "u1" "t" [("name", JVal.str "X")])⟩ :=
  (createProject_fresh_id (some (some [])) "u1" "t" [("name", JVal.str "X")]
    (by decide) (by decide) (by decide)).1

/-- C10: on create the server-set timestamps are spread after the body, so
`createdAt` and `updatedAt` of the stored and returned record are the request
instant whatever the body supplied; on update the same holds for `updatedAt`,
while a body-supplied `createdAt` or `id` does overwrite the stored value. -/
theorem server_timestamps_override (st : St) (fid now pid : String)
    (body : Obj) (i : Nat)
    (hi : findIndex (idMatches pid) (readProjects st) = some i) :
    (createProject fid now body true st).1.body
        = .record (createRecord fid now body) ∧
    oget (createRecord fid now body) "createdAt" = some (JVal.str now) ∧
    oget (createRecord fid now body) "updatedAt" = some (JVal.str now) ∧
    (updateProject pid now body true st).1.body
        = .record (mergedRecord ((readProjects st).getD i []) body now) ∧
    oget (mergedRecord ((readProjects st).getD i []) body now) "updatedAt"
        = some (JVal.str now) ∧
    (∀ v, oget body "createdAt" = some v →
      oget (mergedRecord ((readProjects st).getD i []) body now) "createdAt"
        = some v) ∧
    (∀ v, oget body "id" = some v →
      oget (mergedRecord ((readProjects st).getD i []) body now) "id"
        = some v) := by
  refine ⟨by simp [createProject, writeProjects],
    oget_createRecord_createdAt fid now body,
    oget_createRecord_updatedAt fid now body,
    by simp [updateProject, hi, writeProjects],
    oget_mergedRecord_updatedAt _ body now, ?_, ?_⟩
  · intro v hv
    exact oget_mergedRecord_of_body _ body now "createdAt" v (by decide) hv
  · intro v hv
    exact oget_mergedRecord_of_body _ body now "id" v (by decide) hv

theorem server_timestamps_override_witness :
    oget (createRecord "u" "t1" [("createdAt", JVal.str "evil")]) "createdAt"
        = some (JVal.str "t1") ∧
    oget (mergedRecord
        ((readProjects (some (some [[("id", JVal.str "a"),
          ("createdAt", JVal.str "t0")]]))).getD 0 [])
        [("createdAt", JVal.str "evil")] "t1") "createdAt"
        = some (JVal.str "evil") := by
  have h := server_timestamps_override
    (some (some [[("id", JVal.str "a"), ("createdAt", JVal.str "t0")]]))
    "u" "t1" "a" [("createdAt", JVal.str "evil")] 0 (by decide)
  exact ⟨h.2.1, h.2.2.2.2.2.1 (JVal.str "evil") (by decide)⟩

/-- C2: updating an existing record with a body holding only `status` answers
200 with the shallow-merged record: `name`, `industry`, the two scores, `id`
and `createdAt` are unchanged, `status` is the body's, `updatedAt` is the
(fresh) request instant and so differs from the stored one, and every other
record of the collection is untouched. -/
theorem updateProject_status_only (st : St) (pid s now : String) (i : Nat)
    (hi : findIndex (idMatches pid) (readProjects st) = some i)
    (hclock : oget ((readProjects st).getD i []) "updatedAt"
        ≠ some (JVal.str now)) :
    (updateProject pid now [("status", JVal.str s)] true st).1
        = ⟨200, .record (mergedRecord ((readProjects st).getD i [])
            [("status", JVal.str s)] now)⟩ ∧
    oget (mergedRecord ((readProjects st).getD i []) [("status", JVal.str s)]
        now) "name" = oget ((readProjects st).getD i []) "name" ∧
    oget (mergedRecord ((readProjects st).getD i []) [("status", JVal.str s)]
        now) "industry" = oget ((readProjects st).getD i []) "industry" ∧
    oget (mergedRecord ((readProjects st).getD i []) [("status", JVal.str s)]
        now) "инвестиционнаяОценка"
        = oget ((readProjects st).getD i []) "инвестиционнаяОценка" ∧
    oget (mergedRecord ((readProjects st).getD i []) [("status", JVal.str s)]
        now) "транспортнаяОценка"
        = oget ((readProjects st).getD i []) "транспортнаяОценка" ∧
    oget (mergedRecord ((readProjects st).getD i []) [("status", JVal.str s)]
        now) "id" = oget ((readProjects st).getD i []) "id" ∧
    oget (mergedRecord ((readProjects st).getD i []) [("status", JVal.str s)]
        now) "createdAt" = oget ((readProjects st).getD i []) "createdAt" ∧
    oget (mergedRecord ((readProjects st).getD i []) [("status", JVal.str s)]
        now) "status" = some (JVal.str s) ∧
    oget (mergedRecord ((readProjects st).getD i []) [("status", JVal.str s)]
        now) "updatedAt" = some (JVal.str now) ∧
    oget (mergedRecord ((readProjects st).getD i []) [("status", JVal.str s)]
        now) "updatedAt" ≠ oget ((readProjects st).getD i []) "updatedAt" ∧
    readProjects (updateProject pid now [("status", JVal.str s)] true st).2
        = (readProjects st).set i (mergedRecord ((readProjects st).getD i [])
            [("status", JVal.str s)] now) ∧
    (∀ j, j ≠ i →
      ((readProjects st).set i (mergedRecord ((readProjects st).getD i [])
          [("status", JVal.str s)] now))[j]? = (readProjects st)[j]?) := by
  refine ⟨by simp [updateProject, hi, writeProjects],
    oget_mergedRecord_of_not_body _ _ now "name" (by decide) (by simp [oget]),
    oget_mergedRecord_of_not_body _ _ now "industry" (by decide)
      (by simp [oget]),
    oget_mergedRecord_of_not_body _ _ now "инвестиционнаяОценка" (by decide)
      (by simp [oget]),
    oget_mergedRecord_of_not_body _ _ now "транспортнаяОценка" (by decide)
      (by simp [oget]),
    oget_mergedRecord_of_not_body _ _ now "id" (by decide) (by simp [oget]),
    oget_mergedRecord_of_not_body _ _ now "createdAt" (by decide)
      (by simp [oget]),
    oget_mergedRecord_of_body _ _ now "status" (JVal.str s) (by decide)
      (by simp [oget]),
    oget_mergedRecord_updatedAt _ _ now, ?_,
    by simp only [updateProject, hi, writeProjects]
       simp [readProjects], ?_⟩
  · rw [oget_mergedRecord_updatedAt _ _ now]
    intro heq
    exact hclock heq.symm
  · intro j hj
    exact List.getElem?_set_ne (fun h => hj h.symm)

/-- C9: when the loaded collection is empty, startup seeding persists exactly
the three sample records, with the three freshly generated (distinct) ids and
the startup instant as both timestamps; when the loaded collection is
non-empty, seeding leaves the persisted document untouched. -/
theorem initializeSampleData_seeds_three (st : St) (i1 i2 i3 now : String)
    (h12 : i1 ≠ i2) (h13 : i1 ≠ i3) (h23 : i2 ≠ i3) :
    (readProjects st = [] →
      readProjects (initializeSampleData i1 i2 i3 now true st)
          = sampleProjects i1 i2 i3 now ∧
      (sampleProjects i1 i2 i3 now).length = 3 ∧
      idsOf (sampleProjects i1 i2 i3 now)
          = [some (JVal.str i1), some (JVal.str i2), some (JVal.str i3)] ∧
      (idsOf (sampleProjects i1 i2 i3 now)).Nodup ∧
      ∀ p ∈ sampleProjects i1 i2 i3 now,
        oget p "createdAt" = some (JVal.str now) ∧
        oget p "updatedAt" = some (JVal.str now)) ∧
    (∀ w : Bool, readProjects st ≠ [] →
      initializeSampleData i1 i2 i3 now w st = st) := by
  constructor
  · intro hempty
    have hcond : (readProjects st).length = 0 := by rw [hempty]; rfl
    have hinit : initializeSampleData i1 i2 i3 now true st
        = some (some (sampleProjects i1 i2 i3 now)) := by
      simp [initializeSampleData, hcond, writeProjects]
    have hids : idsOf (sampleProjects i1 i2 i3 now)
        = [some (JVal.str i1), some (JVal.str i2), some (JVal.str i3)] := by
      simp [idsOf, sampleProjects, oget, Option.orElse]
    refine ⟨by rw [hinit]; rfl, rfl, hids, ?_, ?_⟩
    · rw [hids]
      simp [h12, h13, h23]
    · intro p hp
      simp only [sampleProjects, List.mem_cons, List.not_mem_nil, or_false]
        at hp
      rcases hp with h | h | h <;> subst h <;>
        exact ⟨by simp [oget, Option.orElse], by simp [oget, Option.orElse]⟩
  · intro w hne
    have hcond : ¬ ((readProjects st).length = 0) := by
      simpa [List.length_eq_zero] using hne
    simp [initializeSampleData, hcond]

theorem initializeSampleData_seeds_three_witness :
    readProjects (initializeSampleData "a" "b" "c" "t" true (some (some [])))
        = sampleProjects "a" "b" "c" "t" ∧
    (sampleProjects "a" "b" "c" "t").length = 3 ∧
    idsOf (sampleProjects "a" "b" "c" "t")
        = [some (JVal.str "a"), some (JVal.str "b"), some (JVal.str "c")] ∧
    (idsOf (sampleProjects "a" "b" "c" "t")).Nodup ∧
    ∀ p ∈ sampleProjects "a" "b" "c" "t",
      oget p "createdAt" = some (JVal.str "t") ∧
      oget p "updatedAt" = some (JVal.str "t") :=
  (initializeSampleData_seeds_three (some (some [])) "a" "b" "c" "t"
    (by decide) (by decide) (by decide)).1 rfl

/-! ## Trace lemmas for C7 -/

theorem numCreates_create (fid now : String) (body : Obj) (ops : List Op) :
    numCreates (.create fid now body :: ops) = numCreates ops + 1 := by
  simp [numCreates, List.countP_cons]

theorem numCreates_del (pid : String) (ops : List Op) :
    numCreates (.del pid :: ops) = numCreates ops := by
  simp [numCreates, List.countP_cons]

theorem numDels_create (fid now : String) (body : Obj) (ops : List Op) :
    numDels (.create fid now body :: ops) = numDels ops := by
  simp [numDels, List.countP_cons]

theorem numDels_del (pid : String) (ops : List Op) :
    numDels (.del pid :: ops) = numDels ops + 1 := by
  simp [numDels, List.countP_cons]

/-- A successful create appends the new record and answers 201. -/
theorem runOp_create (l : List Obj) (fid now : String) (body : Obj) :
    runOp l (.create fid now body)
      = (⟨201, .record (createRecord fid now body)⟩,
         l ++ [createRecord fid now body]) := by
  simp [runOp, createProject, writeProjects, readProjects]

/-- A delete that filters out nothing answers 404 and keeps the collection. -/
theorem runOp_del_404 (l : List Obj) (pid : String)
    (h : l.filter (fun q => !(idMatches pid q)) = l) :
    runOp l (.del pid) = (⟨404, .errorMsg "Проект не найден"⟩, l) := by
  have hcond : l.length = (l.filter (fun q => !(idMatches pid q))).length := by
    rw [h]
  simp [runOp, deleteProject, readProjects, h]

/-- A delete that shrinks the collection answers 200 and keeps the filtered
collection. -/
theorem runOp_del_200 (l : List Obj) (pid : String)
    (h : ¬ (l.length = (l.filter (fun q => !(idMatches pid q))).length)) :
    runOp l (.del pid)
      = (⟨200, .message "Проект успешно удален"⟩,
         l.filter (fun q => !(idMatches pid q))) := by
  simp [runOp, deleteProject, readProjects, writeProjects, h]

/-- Invariant for traces of successful creates and deletes: when no create
body carries an `id`, the generated ids are pairwise distinct and disjoint
from the starting ids, and the starting ids are pairwise distinct, the final
collection balances the counts and is an in-order selection of the starting
records followed by the created ones. -/
theorem runOps_invariant (ops : List Op) : ∀ l : List Obj,
    allOk l ops = true →
    bodiesNoId ops = true →
    (opFreshIds ops).Nodup →
    (∀ f ∈ opFreshIds ops, (some (JVal.str f) : Option JVal) ∉ idsOf l) →
    (idsOf l).Nodup →
    (runOps l ops).length + numDels ops = l.length + numCreates ops ∧
    (runOps l ops).Sublist (l ++ createdRecs ops) := by
  induction ops with
  | nil =>
    intro l _ _ _ _ _
    simp [runOps, numDels, numCreates, createdRecs]
  | cons op ops ih =>
    intro l hok hb hnd hfresh hndl
    cases op with
    | create fid now body =>
      have hb' := hb
      simp only [bodiesNoId, Bool.and_eq_true, beq_iff_eq] at hb'
      have hrec : oget (createRecord fid now body) "id" = some (JVal.str fid) :=
        oget_createRecord_id fid now body hb'.1
      have hok2 : allOk (l ++ [createRecord fid now body]) ops = true := by
        have h := hok
        simp [allOk, runOp_create] at h
        exact h
      simp only [opFreshIds, List.nodup_cons] at hnd
      simp only [opFreshIds] at hfresh
      have hfidl : (some (JVal.str fid) : Option JVal) ∉ idsOf l :=
        hfresh fid (List.mem_cons_self _ _)
      have hids' : idsOf (l ++ [createRecord fid now body])
          = idsOf l ++ [some (JVal.str fid)] := by
        simp [idsOf, hrec]
      have hfresh' : ∀ f ∈ opFreshIds ops,
          (some (JVal.str f) : Option JVal)
            ∉ idsOf (l ++ [createRecord fid now body]) := by
        intro f hf
        rw [hids']
        simp only [List.mem_append, List.mem_singleton]
        rintro (hmem | heq)
        · exact hfresh f (List.mem_cons_of_mem _ hf) hmem
        · have hffid : f = fid := by simpa using heq
          exact hnd.1 (hffid ▸ hf)
      have hndl' : (idsOf (l ++ [createRecord fid now body])).Nodup := by
        rw [hids']
        simp [List.nodup_append, hndl, hfidl]
      obtain ⟨ihlen, ihsub⟩ :=
        ih (l ++ [createRecord fid now body]) hok2 hb'.2 hnd.2 hfresh' hndl'
      have hrun : runOps l (.create fid now body :: ops)
          = runOps (l ++ [createRecord fid now body]) ops := by
        simp [runOps, runOp_create]
      constructor
      · rw [hrun, numCreates_create, numDels_create]
        simp only [List.length_append, List.length_singleton] at ihlen
        omega
      · rw [hrun]
        have happ : (l ++ [createRecord fid now body]) ++ createdRecs ops
            = l ++ createdRecs (.create fid now body :: ops) := by
          simp [createdRecs]
        rw [← happ]
        exact ihsub
    | del pid =>
      have hb2 : bodiesNoId ops = true := hb
      rcases filter_not_idMatches_of_nodup pid l hndl with heq | hlen1
      · have h404 := runOp_del_404 l pid heq
        simp [allOk, h404] at hok
      · have hcond : ¬ (l.length
            = (l.filter (fun q => !(idMatches pid q))).length) := by omega
        have h200 := runOp_del_200 l pid hcond
        have hok2 : allOk (l.filter (fun q => !(idMatches pid q))) ops
            = true := by
          have h := hok
          simp [allOk, h200] at h
          exact h
        have hsubf : (l.filter (fun q => !(idMatches pid q))).Sublist l :=
          List.filter_sublist l
        have hidsub : (idsOf (l.filter (fun q => !(idMatches pid q)))).Sublist
            (idsOf l) := hsubf.map _
        have hndl' : (idsOf (l.filter (fun q => !(idMatches pid q)))).Nodup :=
          List.Nodup.sublist hidsub hndl
        have hfresh' : ∀ f ∈ opFreshIds ops,
            (some (JVal.str f) : Option JVal)
              ∉ idsOf (l.filter (fun q => !(idMatches pid q))) := by
          intro f hf hmem
          exact hfresh f (by simpa only [opFreshIds] using hf)
            (hidsub.subset hmem)
        obtain ⟨ihlen, ihsub⟩ := ih (l.filter (fun q => !(idMatches pid q)))
          hok2 hb2 (by simpa only [opFreshIds] using hnd) hfresh' hndl'
        have hrun : runOps l (.del pid :: ops)
            = runOps (l.filter (fun q => !(idMatches pid q))) ops := by
          simp [runOps, h200]
        constructor
        · rw [hrun, numCreates_del, numDels_del]
          omega
        · rw [hrun]
          refine ihsub.trans ?_
          have hstep : ((l.filter (fun q => !(idMatches pid q)))
              ++ createdRecs ops).Sublist (l ++ createdRecs ops) :=
            hsubf.append (List.Sublist.refl _)
          exact hstep

/-- C7 counterexample: creates whose bodies force a duplicated id make one
successful delete remove two records, so after 2 successful creates and 1
successful delete the list holds 0 records, not 2 − 1 = 1. -/
theorem runOps_cex :
    allOk [] [Op.create "u1" "t" [("id", JVal.str "a")],
      Op.create "u2" "t" [("id", JVal.str "a")], Op.del "a"] = true ∧
    numCreates [Op.create "u1" "t" [("id", JVal.str "a")],
      Op.create "u2" "t" [("id", JVal.str "a")], Op.del "a"] = 2 ∧
    numDels [Op.create "u1" "t" [("id", JVal.str "a")],
      Op.create "u2" "t" [("id", JVal.str "a")], Op.del "a"] = 1 ∧
    (runOps [] [Op.create "u1" "t" [("id", JVal.str "a")],
      Op.create "u2" "t" [("id", JVal.str "a")], Op.del "a"]).length = 0 := by
  decide

/-- C7 (amended): starting from an empty collection, for every sequence of
successful creates and deletes in which no create body carries an `id` field
and the generated ids are pairwise distinct, the final collection holds
exactly (number of creates) − (number of deletes) records, and they appear as
an in-order subsequence of the created records (creation order, minus the
deleted ones). -/
theorem runOps_length_and_order (ops : List Op)
    (hok : allOk [] ops = true)
    (hb : bodiesNoId ops = true)
    (hnd : (opFreshIds ops).Nodup) :
    (runOps [] ops).length + numDels ops = numCreates ops ∧
    (runOps [] ops).Sublist (createdRecs ops) := by
  have h := runOps_invariant ops [] hok hb hnd (by simp [idsOf]) (by simp [idsOf])
  simpa using h

theorem runOps_length_and_order_witness :
    (runOps [] [Op.create "u1" "t" [("name", JVal.str "X")],
      Op.create "u2" "t" [], Op.del "u1"]).length
      + numDels [Op.create "u1" "t" [("name", JVal.str "X")],
          Op.create "u2" "t" [], Op.del "u1"]
      = numCreates [Op.create "u1" "t" [("name", JVal.str "X")],
          Op.create "u2" "t" [], Op.del "u1"] ∧
    (runOps [] [Op.create "u1" "t" [("name", JVal.str "X")],
      Op.create "u2" "t" [], Op.del "u1"]).Sublist
        (createdRecs [Op.create "u1" "t" [("name", JVal.str "X")],
          Op.create "u2" "t" [], Op.del "u1"]) :=
  runOps_length_and_order
    [Op.create "u1" "t" [("name", JVal.str "X")], Op.create "u2" "t" [],
      Op.del "u1"]
    (by decide) (by decide) (by decide)

/-- C3 counterexample: the delete handler filters out *all* records carrying
the requested id, so on a collection where two records share an id it removes
two records at once (the collection shrinks from 2 to 0), not exactly one. -/
theorem deleteProject_duplicate_ids_cex :
    (readProjects (some (some [[("id", JVal.str "a")], [("id", JVal.str "a")]]))).length
        = 2 ∧
    (deleteProject "a" true
        (some (some [[("id", JVal.str "a")], [("id", JVal.str "a")]]))).1.status
        = 200 ∧
    readProjects (deleteProject "a" true
        (some (some [[("id", JVal.str "a")], [("id", JVal.str "a")]]))).2
        = [] := by
  refine ⟨rfl, by decide, by decide⟩

/-- C3 (amended): on a collection in which exactly one record carries the
requested id, delete answers 200 and removes exactly that record, keeping all
other records in order; when no record carries the id, delete answers 404 and
leaves the document untouched. -/
theorem deleteProject_removes_exactly_one (st : St) (pid : String) :
    (∀ l1 p l2, readProjects st = l1 ++ p :: l2 → idMatches pid p = true →
      (∀ q ∈ l1, idMatches pid q = false) →
      (∀ q ∈ l2, idMatches pid q = false) →
      (deleteProject pid true st).1 = ⟨200, .message "Проект успешно удален"⟩ ∧
      readProjects (deleteProject pid true st).2 = l1 ++ l2) ∧
    ((∀ q ∈ readProjects st, idMatches pid q = false) →
      deleteProject pid true st = (⟨404, .errorMsg "Проект не найден"⟩, st)) := by
  constructor
  · intro l1 p l2 hdec hp h1 h2
    have hfilter : (readProjects st).filter (fun q => !(idMatches pid q))
        = l1 ++ l2 := by
      rw [hdec]
      exact filter_not_idMatches_single pid l1 l2 p hp h1 h2
    have hcond : ¬ ((readProjects st).length = l1.length + l2.length) := by
      rw [hdec]
      simp only [List.length_append, List.length_cons]
      omega
    have hdel : deleteProject pid true st
        = (⟨200, .message "Проект успешно удален"⟩, some (some (l1 ++ l2))) := by
      simp [deleteProject, hfilter, hcond, writeProjects]
    exact ⟨by rw [hdel], by rw [hdel]; rfl⟩
  · intro h
    have hfilter : (readProjects st).filter (fun q => !(idMatches pid q))
        = readProjects st :=
      List.filter_eq_self.mpr (fun q hq => by simp [h q hq])
    simp [deleteProject, hfilter]

theorem deleteProject_removes_exactly_one_witness :
    (deleteProject "a" true
        (some (some [[("id", JVal.str "a")], [("id", JVal.str "b")]]))).1
      = ⟨200, .message "Проект успешно удален"⟩ ∧
    readProjects (deleteProject "a" true
        (some (some [[("id", JVal.str "a")], [("id", JVal.str "b")]]))).2
      = [] ++ [[("id", JVal.str "b")]] :=
  (deleteProject_removes_exactly_one
      (some (some [[("id", JVal.str "a")], [("id", JVal.str "b")]])) "a").1
    [] [("id", JVal.str "a")] [[("id", JVal.str "b")]]
    rfl (by decide) (by decide) (by decide)

/-- C6 counterexample: when the body of a create carries the `id` of an
existing record, the body's id survives the spread, and an immediate get by
the returned record's id finds the *older* record first — not the created
one. -/
theorem create_then_get_cex :
    (createProject "u1" "t"
        [("id", JVal.str "a"), ("name", JVal.str "new")] true
        (some (some [[("id", JVal.str "a"), ("name", JVal.str "old")]]))).1
      = ⟨201, .record (createRecord "u1" "t"
          [("id", JVal.str "a"), ("name", JVal.str "new")])⟩ ∧
    oget (createRecord "u1" "t" [("id", JVal.str "a"), ("name", JVal.str "new")])
        "id" = some (JVal.str "a") ∧
    (getProjectById "a"
        (createProject "u1" "t"
          [("id", JVal.str "a"), ("name", JVal.str "new")] true
          (some (some [[("id", JVal.str "a"), ("name", JVal.str "old")]]))).2).1.body
      ≠ .record (createRecord "u1" "t"
          [("id", JVal.str "a"), ("name", JVal.str "new")]) := by
  refine ⟨by decide, by decide, by decide⟩

/-- C6 (amended): for a create whose body has no `id` field and whose
generated UUID matches no pre-existing record, the create answers 201 with the
new record and an immediate get by that id returns exactly the same record
(and does not change the document). -/
theorem create_then_get_roundtrip (st : St) (fid now : String) (body : Obj)
    (hbody : oget body "id" = none)
    (hfresh : ∀ p ∈ readProjects st, idMatches fid p = false) :
    (createProject fid now body true st).1
        = ⟨201, .record (createRecord fid now body)⟩ ∧
    getProjectById fid (createProject fid now body true st).2
        = (⟨200, .record (createRecord fid now body)⟩,
           (createProject fid now body true st).2) := by
  refine ⟨by simp [createProject, writeProjects], ?_⟩
  have hstate : (createProject fid now body true st).2
      = some (some (readProjects st ++ [createRecord fid now body])) := by
    simp [createProject, writeProjects]
  have h1 : (readProjects st).find? (idMatches fid) = none :=
    List.find?_eq_none.mpr (fun p hp => by simp [hfresh p hp])
  have hmatch : idMatches fid (createRecord fid now body) = true := by
    simp [idMatches, oget_createRecord_id fid now body hbody]
  have hfind : (readProjects st ++ [createRecord fid now body]).find?
      (idMatches fid) = some (createRecord fid now body) := by
    rw [List.find?_append, h1]
    simp [List.find?_cons, hmatch]
  rw [hstate]
  have hread : readProjects
      (some (some (readProjects st ++ [createRecord fid now body])))
      = readProjects st ++ [createRecord fid now body] := rfl
  simp [getProjectById, hread, hfind]

theorem create_then_get_roundtrip_witness :
    getProjectById "u1"
        (createProject "u1" "t" [("name", JVal.str "X")] true (some (some []))).2
      = (⟨200, .record (createRecord "u1" "t" [("name", JVal.str "X")])⟩,
         (createProject "u1" "t" [("name", JVal.str "X")] true (some (some []))).2) :=
  (create_then_get_roundtrip (some (some [])) "u1" "t" [("name", JVal.str "X")]
    (by decide) (by decide)).2

theorem updateProject_status_only_witness :
    (updateProject "a" "t1" [("status", JVal.str "S2")] true
        (some (some [[("id", JVal.str "a"), ("name", JVal.str "N"),
          ("status", JVal.str "S"), ("updatedAt", JVal.str "t0")]]))).1.status
      = 200 := by
  rw [(updateProject_status_only
    (some (some [[("id", JVal.str "a"), ("name", JVal.str "N"),
      ("status", JVal.str "S"), ("updatedAt", JVal.str "t0")]]))
    "a" "S2" "t1" 0 (by decide) (by decide)).1]
